import Mathlib

/-!
Verification development for the x402c off-chain fulfillment agent runtime.

The definitions below are shallow embeddings of the TypeScript sources:
pure decision logic becomes Lean functions over the numeric values that the
RPC calls return, stateful loops become explicit step functions or step
relations on small state types, and bigint arithmetic becomes Nat/Int with
floor division. Each theorem cites the source location it is about.
-/

namespace X402C

/-- Request lifecycle status, mirroring the RequestStatus enum in
backend/src/services/hubService.ts (PENDING = 0, FULFILLED = 1, CANCELLED = 2). -/
inductive RequestStatus where
  | pending
  | fulfilled
  | cancelled
deriving DecidableEq, Repr

/-- Result record of the SDK profitability gate, mirroring the
ProfitabilityResult returned by checkTxProfitability in
sdk/src/utils/profitability.ts. -/
structure ProfitabilityResult where
  estimatedGas : Nat
  estimatedCostWei : Nat
  estimatedCostUsdc : Nat
  reimbursementUsdc : Nat
  profitUsdc : Int
  isProfitable : Bool
deriving DecidableEq, Repr

/-- Shallow embedding of checkTxProfitability (sdk/src/utils/profitability.ts).
The RPC reads (estimateGas, getGasPrice, the ethPrice oracle read) are passed
in as the numeric values they return. Source defaults are
lossToleranceUsdc = 5000 and gasBufferPct = 120. -/
def checkTxProfitability (estimatedGasRaw gasPrice ethPrice reimbursementUsdc
    lossToleranceUsdc gasBufferPct : Nat) : ProfitabilityResult :=
  let estimatedGas := estimatedGasRaw * gasBufferPct / 100
  let estimatedCostWei := estimatedGas * gasPrice
  let estimatedCostUsdc : Nat :=
    if ethPrice > 0 then estimatedCostWei * ethPrice / 10 ^ 18 else 0
  let profitUsdc : Int := (reimbursementUsdc : Int) - (estimatedCostUsdc : Int)
  ⟨estimatedGas, estimatedCostWei, estimatedCostUsdc, reimbursementUsdc,
    profitUsdc, decide (profitUsdc ≥ -(lossToleranceUsdc : Int))⟩

/-- Shallow embedding of the inline profitability check inside
fulfillRequestOnChain (backend/src/services/hubService.ts, lines 802-821).
A failed gas-price or ETH-price lookup is modelled as none and makes the check
pass, because the try/catch proceeds on lookup failure; with both lookups
available and a positive ETH price, the code skips the fulfillment exactly
when profit drops strictly below -5000 (a loss beyond 0.005 USD). -/
def hubProfitCheck (gasPrice ethPrice : Option Nat)
    (estimatedGas reimbursementUnits : Nat) : Bool :=
  match gasPrice, ethPrice with
  | some gp, some ep =>
    if ep > 0 then
      let estimatedCostWei := estimatedGas * gp
      let estimatedCostUsdc : Nat := estimatedCostWei * ep / 10 ^ 18
      let profitUsdc : Int := (reimbursementUnits : Int) - (estimatedCostUsdc : Int)
      decide (¬ (profitUsdc < -5000))
    else true
  | _, _ => true

/-- Agent handler families registered in the fulfillment router
(backend/src/agents/agentRunner.ts). -/
inductive AgentType where
  | alchemy
  | opensea
deriving DecidableEq, Repr

/-- Broadcast event types emitted on the paths modelled here, from the
broadcast calls in agentRunner.ts and hubService.ts. -/
inductive BroadcastType where
  | requestCreated
  | requestRouting
  | requestTimeout
  | requestFulfilled
  | requestCancelled
deriving DecidableEq, Repr

/-- Fields of a hub request consumed by routeRequest; createdAt is the
on-chain creation timestamp in seconds, as in the HubRequest interface of
hubService.ts. -/
structure HubRequest where
  requestId : Nat
  endpointId : Nat
  createdAt : Int
  status : RequestStatus
deriving DecidableEq, Repr

/-- Staleness cutoff of the router: TIMEOUT_MS = 5 * 60 * 1000 in
agentRunner.ts. -/
def TIMEOUT_MS : Int := 5 * 60 * 1000

/-- Observable outcome of one routeRequest invocation: whether the call was
dropped at the single-flight guard, which broadcasts it emitted, whether it
submitted cancelRequest through the sender, and which handler it delegated
to. -/
structure RouteOutcome where
  dropped : Bool
  broadcasts : List BroadcastType
  cancelSubmitted : Bool
  handlerInvoked : Option AgentType
deriving DecidableEq, Repr

/-- Shallow embedding of the decision structure of routeRequest
(backend/src/agents/agentRunner.ts, lines 52-103): single-flight guard,
strict 5-minute staleness check on nowMs - createdAt * 1000, then dispatch on
the endpoint registries, cancelling requests with no registered handler. -/
def routeRequest (inProgress alchemyEndpointIds openseaEndpointIds : List Nat)
    (nowMs : Int) (req : HubRequest) : RouteOutcome :=
  if req.requestId ∈ inProgress then
    ⟨true, [], false, none⟩
  else
    let ageMs := nowMs - req.createdAt * 1000
    if ageMs > TIMEOUT_MS then
      ⟨false, [BroadcastType.requestTimeout], true, none⟩
    else if req.endpointId ∈ alchemyEndpointIds then
      ⟨false, [BroadcastType.requestRouting], false, some AgentType.alchemy⟩
    else if req.endpointId ∈ openseaEndpointIds then
      ⟨false, [BroadcastType.requestRouting], false, some AgentType.opensea⟩
    else
      ⟨false, [BroadcastType.requestTimeout], true, none⟩

/-- C2: the profitability gate computes profit = reimbursement - usdcCost and
declares a call profitable exactly when profit ≥ -lossTolerance; with the
default tolerance 5000, profit = -5000 passes and profit = -5001 is rejected,
both in the SDK gate (checkTxProfitability) and in the hub fulfill path
(hubProfitCheck, where passing means the fulfillment proceeds). -/
theorem checkTxProfitability_lossTolerance_boundary :
    (∀ raw gp ep reimb tol buf,
      (checkTxProfitability raw gp ep reimb tol buf).isProfitable = true ↔
        (checkTxProfitability raw gp ep reimb tol buf).profitUsdc ≥ -(tol : Int)) ∧
    (∀ raw gp ep reimb,
      ((checkTxProfitability raw gp ep reimb 5000 120).profitUsdc = -5000 →
        (checkTxProfitability raw gp ep reimb 5000 120).isProfitable = true) ∧
      ((checkTxProfitability raw gp ep reimb 5000 120).profitUsdc = -5001 →
        (checkTxProfitability raw gp ep reimb 5000 120).isProfitable = false)) ∧
    (∀ gp ep estGas reimb : Nat, 0 < ep →
      ((reimb : Int) - ((estGas * gp * ep / 10 ^ 18 : Nat) : Int) = -5000 →
        hubProfitCheck (some gp) (some ep) estGas reimb = true) ∧
      ((reimb : Int) - ((estGas * gp * ep / 10 ^ 18 : Nat) : Int) = -5001 →
        hubProfitCheck (some gp) (some ep) estGas reimb = false)) := by
  refine ⟨?_, ?_, ?_⟩
  · intro raw gp ep reimb tol buf
    simp [checkTxProfitability]
  · intro raw gp ep reimb
    constructor <;> intro h <;> simp [checkTxProfitability] at h ⊢ <;> omega
  · intro gp ep estGas reimb hep
    constructor <;> intro h <;>
      simp only [hubProfitCheck, if_pos hep, decide_eq_true_eq, decide_eq_false_iff_not,
        not_not, not_lt] <;>
      omega

/-- Witness for C2 at concrete inputs: raw estimate 4167 with the default 20
percent buffer gives 5000 gas, unit gas price and an ETH price of 1e18 make
the USDC cost exactly 5000, so zero reimbursement lands exactly on
profit = -5000; raw estimate 4168 lands on -5001. -/
theorem checkTxProfitability_lossTolerance_boundary_witness :
    (checkTxProfitability 4167 1 (10 ^ 18) 0 5000 120).isProfitable = true ∧
    (checkTxProfitability 4168 1 (10 ^ 18) 0 5000 120).isProfitable = false ∧
    hubProfitCheck (some 1) (some (10 ^ 18)) 5000 0 = true ∧
    hubProfitCheck (some 1) (some (10 ^ 18)) 5001 0 = false :=
  ⟨(checkTxProfitability_lossTolerance_boundary.2.1 4167 1 (10 ^ 18) 0).1 (by decide),
   (checkTxProfitability_lossTolerance_boundary.2.1 4168 1 (10 ^ 18) 0).2 (by decide),
   ((checkTxProfitability_lossTolerance_boundary.2.2 1 (10 ^ 18) 5000 0 (by decide)).1
     (by decide)),
   ((checkTxProfitability_lossTolerance_boundary.2.2 1 (10 ^ 18) 5001 0 (by decide)).2
     (by decide))⟩

/-- C4: for a request not already in flight, staleness is a strict 5-minute
threshold on nowMs - createdAt * 1000. At age TIMEOUT_MS + eps (eps > 0) the
router emits the request_timeout broadcast, submits cancelRequest through the
sender and invokes no handler; at age TIMEOUT_MS - eps with a registered
handler it routes the request to that handler and does not cancel. -/
theorem routeRequest_staleness_boundary (inProgress alch os : List Nat)
    (nowMs eps : Int) (req : HubRequest)
    (hnotin : req.requestId ∉ inProgress) (heps : 0 < eps) :
    (nowMs - req.createdAt * 1000 = TIMEOUT_MS + eps →
      routeRequest inProgress alch os nowMs req =
        ⟨false, [BroadcastType.requestTimeout], true, none⟩) ∧
    (nowMs - req.createdAt * 1000 = TIMEOUT_MS - eps →
      (req.endpointId ∈ alch →
        routeRequest inProgress alch os nowMs req =
          ⟨false, [BroadcastType.requestRouting], false, some AgentType.alchemy⟩) ∧
      (req.endpointId ∉ alch → req.endpointId ∈ os →
        routeRequest inProgress alch os nowMs req =
          ⟨false, [BroadcastType.requestRouting], false, some AgentType.opensea⟩)) := by
  constructor
  · intro hage
    have hstale : nowMs - req.createdAt * 1000 > TIMEOUT_MS := by omega
    simp [routeRequest, hnotin, hstale]
  · intro hage
    have hfresh : ¬ (nowMs - req.createdAt * 1000 > TIMEOUT_MS) := by omega
    constructor
    · intro halch
      simp [routeRequest, hnotin, hfresh, halch]
    · intro halch hos
      simp [routeRequest, hnotin, hfresh, halch, hos]

/-- Witness for C4 at concrete inputs: request id 1 not in flight, endpoint 7
registered to the alchemy handler, createdAt = 0; at nowMs one millisecond
past the 5-minute cutoff the router cancels, one millisecond before it routes
to the handler. -/
theorem routeRequest_staleness_boundary_witness :
    routeRequest [2] [7] [] 300001 ⟨1, 7, 0, RequestStatus.pending⟩ =
      ⟨false, [BroadcastType.requestTimeout], true, none⟩ ∧
    routeRequest [2] [7] [] 299999 ⟨1, 7, 0, RequestStatus.pending⟩ =
      ⟨false, [BroadcastType.requestRouting], false, some AgentType.alchemy⟩ :=
  ⟨(routeRequest_staleness_boundary [2] [7] [] 300001 1 ⟨1, 7, 0, RequestStatus.pending⟩
      (by decide) (by decide)).1 (by decide),
   ((routeRequest_staleness_boundary [2] [7] [] 299999 1 ⟨1, 7, 0, RequestStatus.pending⟩
      (by decide) (by decide)).2 (by decide)).1 (by decide)⟩

/-- Receipt status returned by waitForTransactionReceipt. -/
inductive ReceiptStatus where
  | success
  | reverted
deriving DecidableEq, Repr

/-- Environment of one on-chain write attempt in hubService.ts: the values
the RPC calls would return during that attempt. none models a throwing call
(failed fetch, reverting simulation, or a writeContract error). -/
structure ChainEnv where
  walletConfigured : Bool
  requestStatus : Option RequestStatus
  estimateGasRaw : Option Nat
  gasPrice : Option Nat
  ethPrice : Option Nat
  gasReimbursementUnits : Nat
  writeTxHash : Option Nat
  receiptStatus : ReceiptStatus
deriving DecidableEq, Repr

/-- Awaiting a transaction receipt: a reverted receipt yields null, a
successful one yields the transaction hash (the receipt-handling pattern of
hubService.ts). -/
def awaitReceipt (s : ReceiptStatus) (h : Nat) : Option Nat :=
  match s with
  | ReceiptStatus.reverted => none
  | ReceiptStatus.success => some h

/-- Shallow embedding of fulfillRequestOnChain
(backend/src/services/hubService.ts, lines 746-865): pre-flight PENDING
check, gas estimation with 20 percent buffer (a failing simulation aborts),
inline profitability check, transaction submission, then the awaited
receipt. -/
def fulfillRequestOnChain (env : ChainEnv) : Option Nat :=
  if env.walletConfigured then
    match env.requestStatus with
    | some RequestStatus.pending =>
      match env.estimateGasRaw with
      | none => none
      | some raw =>
        let estimatedGas := raw * 120 / 100
        if hubProfitCheck env.gasPrice env.ethPrice estimatedGas
            env.gasReimbursementUnits then
          match env.writeTxHash with
          | none => none
          | some h => awaitReceipt env.receiptStatus h
        else none
    | _ => none
  else none

/-- Shallow embedding of cancelRequestOnChain (hubService.ts, lines 870-901):
it submits cancelRequest through the sender and returns the transaction hash
without ever awaiting the transaction receipt. -/
def cancelRequestOnChain (env : ChainEnv) : Option Nat :=
  if env.walletConfigured then env.writeTxHash else none

/-- Shallow embedding of flushProtocolFeesToBuyback (hubService.ts, lines
711-740): submit the flush, await the receipt, return null when it
reverted. -/
def flushProtocolFeesToBuyback (env : ChainEnv) : Option Nat :=
  if env.walletConfigured then
    match env.writeTxHash with
    | none => none
    | some h => awaitReceipt env.receiptStatus h
  else none

/-- C3 counterexample: in an environment where the transaction receipt has
reverted status, cancelRequestOnChain still returns the transaction hash (it
never awaits the receipt), so the claim that every write operation surfaces
null on a reverted receipt is false. -/
theorem cancelRequestOnChain_reverted_counterexample :
    cancelRequestOnChain
      ⟨true, some RequestStatus.pending, some 100, some 1, some 1, 0, some 7,
        ReceiptStatus.reverted⟩ = some 7 ∧
    ¬ (cancelRequestOnChain
      ⟨true, some RequestStatus.pending, some 100, some 1, some 1, 0, some 7,
        ReceiptStatus.reverted⟩ = none) := by
  decide

/-- C3 (amended): the receipt-awaiting writes never treat a reverted receipt
as success — fulfillRequestOnChain and flushProtocolFeesToBuyback return
null whenever the awaited receipt has reverted status — while
cancelRequestOnChain returns its result without consulting the receipt at
all, so its result is independent of the receipt status. -/
theorem revertedReceipt_never_success (env : ChainEnv)
    (hrev : env.receiptStatus = ReceiptStatus.reverted) :
    fulfillRequestOnChain env = none ∧
    flushProtocolFeesToBuyback env = none ∧
    ∀ s s' : ReceiptStatus,
      cancelRequestOnChain ⟨env.walletConfigured, env.requestStatus,
        env.estimateGasRaw, env.gasPrice, env.ethPrice,
        env.gasReimbursementUnits, env.writeTxHash, s⟩ =
      cancelRequestOnChain ⟨env.walletConfigured, env.requestStatus,
        env.estimateGasRaw, env.gasPrice, env.ethPrice,
        env.gasReimbursementUnits, env.writeTxHash, s'⟩ := by
  refine ⟨?_, ?_, fun s s' => rfl⟩
  · unfold fulfillRequestOnChain
    rw [hrev]
    repeat first | rfl | (split <;> try rfl)
    all_goals simp [awaitReceipt]
  · unfold flushProtocolFeesToBuyback
    rw [hrev]
    repeat first | rfl | (split <;> try rfl)

/-- Witness for C3 (amended) at a concrete reverted-receipt environment. -/
theorem revertedReceipt_never_success_witness :
    fulfillRequestOnChain
      ⟨true, some RequestStatus.pending, some 100, some 1, some 1, 0, some 7,
        ReceiptStatus.reverted⟩ = none ∧
    flushProtocolFeesToBuyback
      ⟨true, some RequestStatus.pending, some 100, some 1, some 1, 0, some 7,
        ReceiptStatus.reverted⟩ = none :=
  ⟨(revertedReceipt_never_success
      ⟨true, some RequestStatus.pending, some 100, some 1, some 1, 0, some 7,
        ReceiptStatus.reverted⟩ rfl).1,
   (revertedReceipt_never_success
      ⟨true, some RequestStatus.pending, some 100, some 1, some 1, 0, some 7,
        ReceiptStatus.reverted⟩ rfl).2.1⟩

/-- Environment of one keep-alive fulfill attempt
(sdk/src/clients/keepAlive.ts): the values the RPC reads return during the
attempt. none on estimateGasRaw models a reverting simulation; none on
ethPriceResult models a throwing read inside the profitability try block
(the code proceeds in that case). -/
structure KeepAliveEnv where
  inFlight : List Nat
  subscriptionId : Nat
  ready : Bool
  fee : Nat
  gasReimbursement : Nat
  estimateGasRaw : Option Nat
  gasPrice : Nat
  ethPriceResult : Option Nat
  txHash : Nat
  skipProfitCheck : Bool
deriving DecidableEq, Repr

/-- Observable result of one keep-alive fulfill attempt: the returned
optional transaction hash, whether a transaction was submitted through the
sender, and the intermediate cost values when the profitability branch
computed them. -/
structure KeepAliveFulfillResult where
  txHash : Option Nat
  submitted : Bool
  estimatedCostWei : Option Nat
  estimatedCostUsdc : Option Nat
  profitUsdc : Option Int
deriving DecidableEq, Repr

/-- Shallow embedding of fulfill in sdk/src/clients/keepAlive.ts (lines
684-751): single-flight guard on the subscription id, isReady recheck, agent
payout = fee + gasReimbursement, gas estimate with 20 percent buffer, inline
profitability check (skip when profit < -5000 and the oracle price is
positive; proceed when the price read throws or the price is zero), then
submission through the sender. -/
def keepAliveFulfill (env : KeepAliveEnv) : KeepAliveFulfillResult :=
  if env.subscriptionId ∈ env.inFlight then ⟨none, false, none, none, none⟩
  else if !env.ready then ⟨none, false, none, none, none⟩
  else
    let agentPayout := env.fee + env.gasReimbursement
    match env.estimateGasRaw with
    | none => ⟨none, false, none, none, none⟩
    | some raw =>
      let estimatedGas := raw * 120 / 100
      if env.skipProfitCheck then ⟨some env.txHash, true, none, none, none⟩
      else
        match env.ethPriceResult with
        | none => ⟨some env.txHash, true, none, none, none⟩
        | some ethPrice =>
          if ethPrice > 0 then
            let estimatedCostWei := estimatedGas * env.gasPrice
            let estimatedCostUsdc : Nat := estimatedCostWei * ethPrice / 10 ^ 18
            let profitUsdc : Int := (agentPayout : Int) - (estimatedCostUsdc : Int)
            if profitUsdc < -5000 then
              ⟨none, false, some estimatedCostWei, some estimatedCostUsdc,
                some profitUsdc⟩
            else
              ⟨some env.txHash, true, some estimatedCostWei, some estimatedCostUsdc,
                some profitUsdc⟩
          else ⟨some env.txHash, true, none, none, none⟩

/-- C6 counterexample: with a raw gas estimate of 800000, a gas price of 100
gwei (100000000000 wei) and the 20 percent buffer the code applies, the
computed cost in wei is 96000000000000000 (9.6e16), not 8e13 as the claim
states, and the profit is not -140000. -/
theorem keepAliveFulfill_costWei_counterexample :
    (keepAliveFulfill
      ⟨[], 1, true, 100000, 0, some 800000, 100000000000, some 3000000000, 99,
        false⟩).estimatedCostWei = some 96000000000000000 ∧
    ¬ ((keepAliveFulfill
      ⟨[], 1, true, 100000, 0, some 800000, 100000000000, some 3000000000, 99,
        false⟩).estimatedCostWei = some 80000000000000) ∧
    ¬ ((keepAliveFulfill
      ⟨[], 1, true, 100000, 0, some 800000, 100000000000, some 3000000000, 99,
        false⟩).profitUsdc = some (-140000)) := by
  decide

/-- C6 (amended): on the keep-alive fulfill path with a ready subscription,
raw simulated gas 800000, gas price 100 gwei, oracle ETH price 3000000000
and agent payout 100000, the buffered gas is 960000, the cost in wei is
9.6e16, the USDC cost is 288000000, the profit is -287900000 which is below
-5000, and fulfill returns null without submitting any transaction. -/
theorem keepAliveFulfill_unprofitable_scenario :
    keepAliveFulfill
      ⟨[], 1, true, 100000, 0, some 800000, 100000000000, some 3000000000, 99,
        false⟩ =
      ⟨none, false, some 96000000000000000, some 288000000, some (-287900000)⟩ ∧
    (-287900000 : Int) < -5000 := by
  decide

/-- Outcome of one poll iteration of the event watcher: a failure is a
throw anywhere in the try block, a success carries the current block number
the poll observed. -/
inductive PollOutcome where
  | success (currentBlock : Nat)
  | failure
deriving DecidableEq, Repr

/-- Backoff-relevant state of watchRequestCreated (hubService.ts): the
consecutive error counter, the current poll interval in milliseconds
(initially 2000) and the lastBlock cursor (0 when absent or reset). -/
structure WatcherState where
  consecutiveErrors : Nat
  currentPollMs : Nat
  lastBlock : Nat
deriving DecidableEq, Repr

/-- Log lines the backoff logic emits. -/
inductive WatcherLog where
  | recovered
  | restoredTo2s
  | backedOff
deriving DecidableEq, Repr

/-- Shallow embedding of one poll of the error and recovery handling of
watchRequestCreated (backend/src/services/hubService.ts, lines 928-1015).
A successful poll has three paths: with no cursor (lastBlock = 0) it sets
the cursor to the current head and resets the counter without touching the
interval and without logging (lines 933-939); with no new blocks it resets
the counter, again without restore or log (lines 941-945); only a poll that
scans new blocks past a nonzero cursor logs a recovery when errors were
pending and restores the 2-second interval when it was backed off (lines
976-987). On failure, the counter increments, from the third consecutive
error the interval doubles up to the 30000 ms ceiling, and from the tenth
the cursor is reset to 0 (lines 994-1014). -/
def watcherStep (s : WatcherState) (o : PollOutcome) :
    WatcherState × List WatcherLog :=
  match o with
  | PollOutcome.success currentBlock =>
    if s.lastBlock = 0 then
      (⟨0, s.currentPollMs, currentBlock⟩, [])
    else if currentBlock ≤ s.lastBlock then
      (⟨0, s.currentPollMs, s.lastBlock⟩, [])
    else
      if 0 < s.consecutiveErrors then
        if 2000 < s.currentPollMs then
          (⟨0, 2000, currentBlock⟩,
            [WatcherLog.recovered, WatcherLog.restoredTo2s])
        else (⟨0, s.currentPollMs, currentBlock⟩, [WatcherLog.recovered])
      else (⟨s.consecutiveErrors, s.currentPollMs, currentBlock⟩, [])
  | PollOutcome.failure =>
    let errs := s.consecutiveErrors + 1
    let newLast := if 10 ≤ errs then 0 else s.lastBlock
    if 3 ≤ errs then
      let newInterval := min (s.currentPollMs * 2) 30000
      (⟨errs, newInterval, newLast⟩,
        if newInterval ≠ s.currentPollMs then [WatcherLog.backedOff] else [])
    else (⟨errs, s.currentPollMs, newLast⟩, [])

/-- Initial watcher state: 2-second polling, no pending errors, resuming
from the given cursor. -/
def watcherInit (cursor : Nat) : WatcherState := ⟨0, 2000, cursor⟩

/-- Run the watcher backoff state machine over a sequence of poll outcomes,
starting from the given cursor. -/
def runWatcher (cursor : Nat) (outcomes : List PollOutcome) : WatcherState :=
  outcomes.foldl (fun s o => (watcherStep s o).1) (watcherInit cursor)

lemma watcherStep_pollMs_le (s : WatcherState) (o : PollOutcome)
    (h : s.currentPollMs ≤ 30000) :
    (watcherStep s o).1.currentPollMs ≤ 30000 := by
  cases o <;> simp only [watcherStep] <;> split_ifs <;> simp <;> omega

lemma runWatcherFrom_pollMs_le (outcomes : List PollOutcome) :
    ∀ s : WatcherState, s.currentPollMs ≤ 30000 →
      (outcomes.foldl (fun s o => (watcherStep s o).1) s).currentPollMs ≤ 30000 := by
  induction outcomes with
  | nil => intro s h; simpa using h
  | cons o rest ih =>
    intro s h
    simpa using ih ((watcherStep s o).1) (watcherStep_pollMs_le s o h)

/-- C7 counterexample: after five consecutive errors the poll interval is
16000 ms, not 8000 ms as the claim states. -/
theorem watcherBackoff_five_errors_counterexample :
    (runWatcher 1 (List.replicate 5 PollOutcome.failure)).currentPollMs = 16000 ∧
    (16000 : Nat) ≠ 8000 := by
  decide

/-- C7 (amended): starting from 2-second polling, three consecutive errors
raise the interval to 4 s, a fourth to 8 s, a fifth to 16 s; the interval
never exceeds 30 s for any cursor and outcome sequence. On the next
successful poll the error counter always resets to zero, but the interval
restore and recovery log happen only when that success scans new blocks
past a nonzero cursor; the other two success paths (no new blocks, or no
cursor) keep the backed-off interval and emit nothing — and since ten
consecutive errors reset the cursor to 0, a success right after them
deterministically takes the cursorless path, leaving the watcher at the
30 s ceiling with a zero error counter and no recovery logged. -/
theorem watcherBackoff_progression :
    (runWatcher 1 (List.replicate 3 PollOutcome.failure)).currentPollMs = 4000 ∧
    (runWatcher 1 (List.replicate 4 PollOutcome.failure)).currentPollMs = 8000 ∧
    (runWatcher 1 (List.replicate 5 PollOutcome.failure)).currentPollMs = 16000 ∧
    (∀ (cursor : Nat) (outcomes : List PollOutcome),
      (runWatcher cursor outcomes).currentPollMs ≤ 30000) ∧
    (∀ (s : WatcherState) (c : Nat), 0 < s.consecutiveErrors →
      2000 ≤ s.currentPollMs → s.lastBlock ≠ 0 → s.lastBlock < c →
      (watcherStep s (PollOutcome.success c)).1.consecutiveErrors = 0 ∧
      (watcherStep s (PollOutcome.success c)).1.currentPollMs = 2000 ∧
      WatcherLog.recovered ∈ (watcherStep s (PollOutcome.success c)).2) ∧
    (∀ (s : WatcherState) (c : Nat), s.lastBlock = 0 ∨ c ≤ s.lastBlock →
      (watcherStep s (PollOutcome.success c)).1.consecutiveErrors = 0 ∧
      (watcherStep s (PollOutcome.success c)).1.currentPollMs =
        s.currentPollMs ∧
      (watcherStep s (PollOutcome.success c)).2 = []) ∧
    runWatcher 1
      (List.replicate 10 PollOutcome.failure ++ [PollOutcome.success 500]) =
      ⟨0, 30000, 500⟩ := by
  refine ⟨by decide, by decide, by decide, ?_, ?_, ?_, by decide⟩
  · intro cursor outcomes
    exact runWatcherFrom_pollMs_le outcomes (watcherInit cursor)
      (by simp [watcherInit])
  · intro s c herr hms hlb hnew
    have hle : ¬ (c ≤ s.lastBlock) := by omega
    simp only [watcherStep, if_neg hlb, if_neg hle, if_pos herr]
    rcases Nat.lt_or_ge 2000 s.currentPollMs with h | h
    · simp [h]
    · have h2 : s.currentPollMs = 2000 := by omega
      simp [h2]
  · intro s c hpath
    by_cases hlb : s.lastBlock = 0
    · simp [watcherStep, hlb]
    · have hle : c ≤ s.lastBlock := by
        rcases hpath with h0 | h
        · exact absurd h0 hlb
        · exact h
      simp [watcherStep, hlb, hle]

/-- Witness for C7 (amended) at concrete states: a scanning success from
three pending errors at an 8-second interval with cursor 7 and head 9
restores the 2 s interval and logs the recovery, while a success in the
cursorless state (as after the 10-error reset) resets the counter but keeps
the 8-second interval and logs nothing. -/
theorem watcherBackoff_progression_witness :
    ((watcherStep ⟨3, 8000, 7⟩ (PollOutcome.success 9)).1.consecutiveErrors = 0 ∧
      (watcherStep ⟨3, 8000, 7⟩ (PollOutcome.success 9)).1.currentPollMs = 2000 ∧
      WatcherLog.recovered ∈ (watcherStep ⟨3, 8000, 7⟩ (PollOutcome.success 9)).2) ∧
    ((watcherStep ⟨3, 8000, 0⟩ (PollOutcome.success 5)).1.consecutiveErrors = 0 ∧
      (watcherStep ⟨3, 8000, 0⟩ (PollOutcome.success 5)).1.currentPollMs = 8000 ∧
      (watcherStep ⟨3, 8000, 0⟩ (PollOutcome.success 5)).2 = []) :=
  ⟨watcherBackoff_progression.2.2.2.2.1 ⟨3, 8000, 7⟩ 9
      (by decide) (by decide) (by decide) (by decide),
   watcherBackoff_progression.2.2.2.2.2.1 ⟨3, 8000, 0⟩ 5 (Or.inl rfl)⟩

/-- Fuel-indexed embedding of the 1000-block chunking loop shared by
pollPendingRequests and watchRequestCreated (hubService.ts): starting at
start, each getLogs call covers [start, min (start + 999) latest] and the
loop advances by 1000 blocks until start exceeds latest. The loop advances
every iteration, so any fuel of at least latest + 1 - start is enough to run
it to completion. -/
def chunkRangesAux : Nat → Nat → Nat → List (Nat × Nat)
  | 0, _, _ => []
  | fuel + 1, start, latest =>
    if start ≤ latest then
      (start, min (start + 999) latest) :: chunkRangesAux fuel (start + 1000) latest
    else []

/-- The chunked getLogs ranges issued for the block range
[start, latest]. -/
def chunkRanges (start latest : Nat) : List (Nat × Nat) :=
  chunkRangesAux (latest + 1 - start) start latest

lemma chunkRangesAux_span (fuel : Nat) :
    ∀ start latest : Nat, ∀ p ∈ chunkRangesAux fuel start latest,
      p.2 - p.1 ≤ 999 := by
  induction fuel with
  | zero =>
    intro start latest p hp
    simp [chunkRangesAux] at hp
  | succ n ih =>
    intro start latest p hp
    simp only [chunkRangesAux] at hp
    split at hp
    · rcases List.mem_cons.mp hp with h | h
      · subst h
        simp only
        omega
      · exact ih (start + 1000) latest p h
    · simp at hp

/-- Shallow embedding of the fromBlock computation of createEventPoller
(sdk/src/utils/polling.ts, lines 44-47): with no cursor, look back 100
blocks from the current head; otherwise resume at lastBlock + 1. The
subsequent getLogs call covers [pollerFromBlock lastBlock current, current]
in a single unchunked request. -/
def pollerFromBlock (lastBlock current : Nat) : Nat :=
  if lastBlock = 0 then (if 100 < current then current - 100 else 0)
  else lastBlock + 1

/-- C8 counterexample: the subscription event poller (createEventPoller)
does not chunk: at cursor lastBlock = 100 with chain head 2101 it issues a
single getLogs call over [101, 2101], a span of 2000 blocks, which exceeds
1000. -/
theorem pollerRange_unchunked_counterexample :
    pollerFromBlock 100 2101 = 101 ∧
    2101 - pollerFromBlock 100 2101 = 2000 ∧
    ¬ (2101 - pollerFromBlock 100 2101 ≤ 1000) := by
  decide

/-- C8 (amended): every getLogs call issued by the chunked scanning loops
(request watcher, fallback poll, sweeper scan) spans at most 1000 blocks
(each chunk extends at most 999 beyond its start), for every cursor state
and gap size; the subscription event poller instead issues one unchunked
call spanning its whole cursor gap, bounded (by 100) only on a fresh start
with no cursor. -/
theorem getLogs_chunk_spans (start latest lastBlock current : Nat) :
    (∀ p ∈ chunkRanges start latest, p.2 - p.1 ≤ 999) ∧
    (0 < lastBlock →
      current - pollerFromBlock lastBlock current = current - (lastBlock + 1)) ∧
    current - pollerFromBlock 0 current ≤ 100 := by
  refine ⟨fun p hp => chunkRangesAux_span _ start latest p hp, ?_, ?_⟩
  · intro hpos
    have : lastBlock ≠ 0 := by omega
    simp [pollerFromBlock, this]
  · simp only [pollerFromBlock, if_pos rfl]
    split_ifs <;> omega

/-- Witness for C8 (amended): the chunk bound applied to the first concrete
chunk of the range [0, 1500], and the poller span at cursor 5 and head
10. -/
theorem getLogs_chunk_spans_witness :
    ((0, 999) : Nat × Nat).2 - ((0, 999) : Nat × Nat).1 ≤ 999 ∧
    10 - pollerFromBlock 5 10 = 10 - 6 :=
  ⟨(getLogs_chunk_spans 0 1500 5 10).1 (0, 999) (by decide),
   (getLogs_chunk_spans 0 1500 5 10).2.1 (by decide)⟩

/-- Shallow embedding of the scan-range computation of pollPendingRequests
(hubService.ts, lines 395-445): resume one past the cursor, or with no
cursor fall back to maxLookbackBlocks before the head; none models the
early return when fromBlock exceeds the head. -/
def pollPendingRequestsRange (savedBlock latestBlock maxLookbackBlocks : Nat) :
    Option (Nat × Nat) :=
  let fromBlock :=
    if 0 < savedBlock then savedBlock + 1
    else if maxLookbackBlocks < latestBlock then latestBlock - maxLookbackBlocks
    else 0
  if latestBlock < fromBlock then none else some (fromBlock, latestBlock)

/-- Shallow embedding of one poll of watchRequestCreated (hubService.ts,
lines 928-974) as a function of the cursor and the current head: the list of
chunked getLogs ranges it scans and the cursor it leaves behind. With no
cursor the first poll scans nothing and sets the cursor to the current
head. -/
def watcherPollScan (lastBlock current : Nat) : List (Nat × Nat) × Nat :=
  if lastBlock = 0 then ([], current)
  else if current ≤ lastBlock then ([], lastBlock)
  else (chunkRanges (lastBlock + 1) current, current)

/-- C9 counterexample: with no cursor, the event watcher path does not scan
the last 1000 blocks before the head: at head 5000 its first poll issues no
getLogs range at all (it merely sets the cursor to 5000) instead of
scanning [4000, 5000]. -/
theorem watcherPollScan_noCursor_counterexample :
    watcherPollScan 0 5000 = ([], 5000) ∧
    ¬ ((4000, 5000) ∈ (watcherPollScan 0 5000).1) := by
  decide

/-- C9 (amended): with no cursor, the fallback-poll and sweeper paths
(pollPendingRequests with its default lookback of 1000) scan exactly the
range from latestBlock - 1000 (or block 0 on a shorter chain) to
latestBlock; the event watcher path instead scans nothing on its cursorless
first poll and sets its cursor to the current head. -/
theorem freshInstall_scan_ranges (latest current : Nat) :
    pollPendingRequestsRange 0 latest 1000 =
      some ((if 1000 < latest then latest - 1000 else 0), latest) ∧
    watcherPollScan 0 current = ([], current) := by
  constructor
  · have h0 : ¬ (0 < 0) := by omega
    simp only [pollPendingRequestsRange, if_neg h0]
    rcases Nat.lt_or_ge 1000 latest with h | h
    · rw [if_pos h, if_neg (by omega : ¬ latest < latest - 1000)]
    · rw [if_neg (by omega : ¬ (1000 < latest)), if_neg (by omega : ¬ latest < 0)]
  · rfl

/-- Execution phase of one closure submitted to the transaction mutex. -/
inductive TaskPhase where
  | notStarted
  | running
  | done
deriving DecidableEq, Repr

/-- Pointwise update of a task-phase assignment. -/
def updPhase (f : Nat → TaskPhase) (i : Nat) (v : TaskPhase) : Nat → TaskPhase :=
  fun j => if j = i then v else f j

lemma updPhase_same (f : Nat → TaskPhase) (i : Nat) (v : TaskPhase) :
    updPhase f i v i = v := by
  simp [updPhase]

lemma updPhase_other (f : Nat → TaskPhase) (i j : Nat) (v : TaskPhase)
    (h : j ≠ i) : updPhase f i v j = f j := by
  simp [updPhase, h]

/-- Reachable states of the promise chain built by withTxMutex
(sdk/src/utils/txQueue.ts). Task i is the i-th closure submitted; submission
order is fixed because the module-level mutex promise is swapped
synchronously. For task i, prev is the promise resolved when task i - 1
settles, and prev.then(fn).finally(resolve) means the closure of task i can
begin only once task i - 1 is done, while task 0 begins on the initially
resolved promise. The scheduler may interleave begin and finish events
arbitrarily subject to those dependencies. -/
inductive TxMutexReach : (Nat → TaskPhase) → Prop where
  | init : TxMutexReach (fun _ => TaskPhase.notStarted)
  | startTask (f : Nat → TaskPhase) (i : Nat) :
      TxMutexReach f → f i = TaskPhase.notStarted →
      (i = 0 ∨ f (i - 1) = TaskPhase.done) →
      TxMutexReach (updPhase f i TaskPhase.running)
  | finishTask (f : Nat → TaskPhase) (i : Nat) :
      TxMutexReach f → f i = TaskPhase.running →
      TxMutexReach (updPhase f i TaskPhase.done)

/-- Ordering invariant of the mutex chain: everything before a running task
is done and everything after it is not started, and the done region is
downward closed. -/
def TxMutexInv (f : Nat → TaskPhase) : Prop :=
  (∀ i, f i = TaskPhase.running →
    (∀ j, j < i → f j = TaskPhase.done) ∧
    (∀ j, i < j → f j = TaskPhase.notStarted)) ∧
  (∀ i, f i = TaskPhase.done → ∀ j, j < i → f j = TaskPhase.done)

lemma txMutexReach_inv {f : Nat → TaskPhase} (h : TxMutexReach f) :
    TxMutexInv f := by
  induction h with
  | init =>
    constructor
    · intro i hi; simp at hi
    · intro i hi; simp at hi
  | startTask f i hf hns hdep ih =>
    obtain ⟨ihr, ihd⟩ := ih
    have hnr : ∀ k, f k ≠ TaskPhase.running := by
      intro k hk
      rcases Nat.lt_trichotomy k i with hki | rfl | hik
      · rcases hdep with h0 | hdone
        · omega
        · rcases Nat.lt_trichotomy k (i - 1) with h1 | rfl | h2
          · have := (ihr k hk).2 (i - 1) (by omega)
            rw [this] at hdone
            simp at hdone
          · rw [hk] at hdone
            simp at hdone
          · omega
      · rw [hns] at hk
        simp at hk
      · have := (ihr k hk).1 i hik
        rw [this] at hns
        simp at hns
    constructor
    · intro a ha
      by_cases hai : a = i
      · subst hai
        constructor
        · intro j hj
          rw [updPhase_other f a j _ (by omega)]
          rcases hdep with h0 | hdone
          · omega
          · rcases Nat.lt_trichotomy j (a - 1) with h1 | rfl | h2
            · exact ihd (a - 1) hdone j h1
            · exact hdone
            · omega
        · intro j hj
          rw [updPhase_other f a j _ (by omega)]
          cases hfj : f j with
          | notStarted => rfl
          | running => exact absurd hfj (hnr j)
          | done =>
            have := ihd j hfj a hj
            rw [this] at hns
            simp at hns
      · rw [updPhase_other f i a _ hai] at ha
        exact absurd ha (hnr a)
    · intro a ha j hj
      by_cases hai : a = i
      · subst hai
        rw [updPhase_same] at ha
        simp at ha
      · rw [updPhase_other f i a _ hai] at ha
        have hfj := ihd a ha j hj
        by_cases hji : j = i
        · subst hji
          rw [hns] at hfj
          simp at hfj
        · rw [updPhase_other f i j _ hji]
          exact hfj
  | finishTask f i hf hrun ih =>
    obtain ⟨ihr, ihd⟩ := ih
    constructor
    · intro a ha
      by_cases hai : a = i
      · subst hai
        rw [updPhase_same] at ha
        simp at ha
      · rw [updPhase_other f i a _ hai] at ha
        exfalso
        rcases Nat.lt_trichotomy a i with h1 | rfl | h2
        · have := (ihr i hrun).1 a h1
          rw [this] at ha
          simp at ha
        · exact hai rfl
        · have := (ihr a ha).1 i h2
          rw [this] at hrun
          simp at hrun
    · intro a ha j hj
      by_cases hai : a = i
      · subst hai
        by_cases hji : j = a
        · omega
        · rw [updPhase_other f a j _ hji]
          exact (ihr a hrun).1 j hj
      · rw [updPhase_other f i a _ hai] at ha
        by_cases hji : j = i
        · subst hji
          rw [updPhase_same]
        · rw [updPhase_other f i j _ hji]
          exact ihd a ha j hj

/-- C5: the transaction mutex invokes submitted closures strictly
sequentially in FIFO submission order: in every state the mutex chain can
reach, at most one submitted closure is running (so at most one transaction
is being prepared for the signing identity at a time), and a closure can
only have started once every earlier-submitted closure has completed. -/
theorem withTxMutex_serializes (f : Nat → TaskPhase) (h : TxMutexReach f) :
    (∀ i j, f i = TaskPhase.running → f j = TaskPhase.running → i = j) ∧
    (∀ i j, i < j → f j ≠ TaskPhase.notStarted → f i = TaskPhase.done) := by
  obtain ⟨invr, invd⟩ := txMutexReach_inv h
  constructor
  · intro i j hi hj
    rcases Nat.lt_trichotomy i j with hlt | heq | hgt
    · have := (invr j hj).1 i hlt
      rw [this] at hi
      simp at hi
    · exact heq
    · have := (invr i hi).1 j hgt
      rw [this] at hj
      simp at hj
  · intro i j hij hj
    cases hfj : f j with
    | notStarted => exact absurd hfj hj
    | running => exact (invr j hfj).1 i hij
    | done => exact invd j hfj i hij

/-- Witness for C5: after submitting two closures, running the first to
completion and starting the second (a concrete reachable interleaving), the
theorem yields that the first closure is already done. -/
theorem withTxMutex_serializes_witness :
    updPhase (updPhase (updPhase (fun _ => TaskPhase.notStarted) 0
      TaskPhase.running) 0 TaskPhase.done) 1 TaskPhase.running 0 =
      TaskPhase.done :=
  (withTxMutex_serializes _
    (TxMutexReach.startTask _ 1
      (TxMutexReach.finishTask _ 0
        (TxMutexReach.startTask _ 0 TxMutexReach.init rfl (Or.inl rfl)) rfl)
      rfl (Or.inr rfl))).2 0 1 (by omega) (by decide)

/-- Phase of one task processing a fixed request id in the router. -/
inductive RouterTask where
  | waiting
  | working
  | dropped
  | finished
deriving DecidableEq, Repr

/-- Pointwise update of a router-task assignment. -/
def updTask (f : Nat → RouterTask) (i : Nat) (v : RouterTask) :
    Nat → RouterTask :=
  fun j => if j = i then v else f j

lemma updTask_same (f : Nat → RouterTask) (i : Nat) (v : RouterTask) :
    updTask f i v i = v := by
  simp [updTask]

lemma updTask_other (f : Nat → RouterTask) (i j : Nat) (v : RouterTask)
    (h : j ≠ i) : updTask f i v j = f j := by
  simp [updTask, h]

/-- Reachable states of the single-flight discipline of routeRequest
(backend/src/agents/agentRunner.ts) for one fixed request id. The Bool is
whether the id is in the inProgress set. The membership check and the
insertion happen in one synchronous stretch of routeRequest (no await
between them), so entering is a single atomic step: a task that finds the id
present drops, otherwise it inserts the id and starts working; the finally
block removes the id when the attempt completes. -/
inductive RouterReach : Bool → (Nat → RouterTask) → Prop where
  | init : RouterReach false (fun _ => RouterTask.waiting)
  | enterFree (f : Nat → RouterTask) (i : Nat) :
      RouterReach false f → f i = RouterTask.waiting →
      RouterReach true (updTask f i RouterTask.working)
  | enterBusy (f : Nat → RouterTask) (i : Nat) :
      RouterReach true f → f i = RouterTask.waiting →
      RouterReach true (updTask f i RouterTask.dropped)
  | exitWork (b : Bool) (f : Nat → RouterTask) (i : Nat) :
      RouterReach b f → f i = RouterTask.working →
      RouterReach false (updTask f i RouterTask.finished)

/-- Single-flight invariant: at most one task is working on the id, and when
the id is not in the set no task is working. -/
def RouterInv (b : Bool) (f : Nat → RouterTask) : Prop :=
  (∀ i j, f i = RouterTask.working → f j = RouterTask.working → i = j) ∧
  (b = false → ∀ i, f i ≠ RouterTask.working)

lemma routerReach_inv {b : Bool} {f : Nat → RouterTask}
    (h : RouterReach b f) : RouterInv b f := by
  induction h with
  | init =>
    constructor
    · intro i j hi hj
      simp at hi
    · intro _ i hi
      simp at hi
  | enterFree f i hf hw ih =>
    obtain ⟨_, ihnone⟩ := ih
    have hnw : ∀ k, f k ≠ RouterTask.working := ihnone rfl
    constructor
    · intro a c ha hc
      by_cases hai : a = i
      · by_cases hci : c = i
        · rw [hai, hci]
        · rw [updTask_other f i c _ hci] at hc
          exact absurd hc (hnw c)
      · rw [updTask_other f i a _ hai] at ha
        exact absurd ha (hnw a)
    · intro hfalse
      simp at hfalse
  | enterBusy f i hf hw ih =>
    obtain ⟨ihuniq, _⟩ := ih
    constructor
    · intro a c ha hc
      by_cases hai : a = i
      · subst hai
        rw [updTask_same] at ha
        simp at ha
      · by_cases hci : c = i
        · subst hci
          rw [updTask_same] at hc
          simp at hc
        · rw [updTask_other f i a _ hai] at ha
          rw [updTask_other f i c _ hci] at hc
          exact ihuniq a c ha hc
    · intro hfalse
      simp at hfalse
  | exitWork b f i hf hw ih =>
    obtain ⟨ihuniq, _⟩ := ih
    have honly : ∀ k, f k = RouterTask.working → k = i := fun k hk =>
      ihuniq k i hk hw
    constructor
    · intro a c ha hc
      by_cases hai : a = i
      · subst hai
        rw [updTask_same] at ha
        simp at ha
      · rw [updTask_other f i a _ hai] at ha
        exact absurd (honly a ha) hai
    · intro _ a
      by_cases hai : a = i
      · subst hai
        rw [updTask_same]
        simp
      · rw [updTask_other f i a _ hai]
        intro ha
        exact hai (honly a ha)

/-- One atomic transition of the on-chain status of a fixed request together
with the count of fulfill transactions this agent has landed for it. An
ownAttempt is one pass through the critical section of
fulfillRequestOnChain inside the tx mutex (hubService.ts, lines 757-840):
it re-reads the status, skips unless still PENDING, and otherwise submits;
a successful submission makes the status FULFILLED, while a reverted one
leaves it PENDING with no on-chain effect. The extern events model other
agents fulfilling or cancelling the request first. -/
inductive FulfillEvent where
  | ownAttempt (succeeds : Bool)
  | externFulfill
  | externCancel
deriving DecidableEq, Repr

/-- Apply one fulfill event to (status, own effect count). -/
def applyFulfillEvent : RequestStatus × Nat → FulfillEvent → RequestStatus × Nat
  | (st, n), FulfillEvent.ownAttempt ok =>
    if st = RequestStatus.pending then
      if ok then (RequestStatus.fulfilled, n + 1) else (RequestStatus.pending, n)
    else (st, n)
  | (st, n), FulfillEvent.externFulfill =>
    if st = RequestStatus.pending then (RequestStatus.fulfilled, n) else (st, n)
  | (st, n), FulfillEvent.externCancel =>
    if st = RequestStatus.pending then (RequestStatus.cancelled, n) else (st, n)

/-- Run a sequence of fulfill events against a freshly created (PENDING)
request with no effects yet. -/
def runFulfillEvents (events : List FulfillEvent) : RequestStatus × Nat :=
  events.foldl applyFulfillEvent (RequestStatus.pending, 0)

/-- Effect-count invariant: effects only happen out of PENDING and PENDING
carries a zero count, so the count never passes 1. -/
def FulfillInv (s : RequestStatus × Nat) : Prop :=
  (s.1 = RequestStatus.pending → s.2 = 0) ∧ s.2 ≤ 1

lemma applyFulfillEvent_inv (s : RequestStatus × Nat) (e : FulfillEvent)
    (hs : FulfillInv s) : FulfillInv (applyFulfillEvent s e) := by
  obtain ⟨st, n⟩ := s
  obtain ⟨hpend, hle⟩ := hs
  cases e with
  | ownAttempt ok =>
    by_cases hp : st = RequestStatus.pending
    · have hn : n = 0 := hpend hp
      cases ok <;> simp [applyFulfillEvent, hp, hn, FulfillInv]
    · simp only [applyFulfillEvent, if_neg hp]
      exact ⟨hpend, hle⟩
  | externFulfill =>
    by_cases hp : st = RequestStatus.pending
    · have hn : n = 0 := hpend hp
      simp [applyFulfillEvent, hp, hn, FulfillInv]
    · simp only [applyFulfillEvent, if_neg hp]
      exact ⟨hpend, hle⟩
  | externCancel =>
    by_cases hp : st = RequestStatus.pending
    · have hn : n = 0 := hpend hp
      simp [applyFulfillEvent, hp, hn, FulfillInv]
    · simp only [applyFulfillEvent, if_neg hp]
      exact ⟨hpend, hle⟩

lemma foldFulfillEvents_inv (events : List FulfillEvent) :
    ∀ s : RequestStatus × Nat, FulfillInv s →
      FulfillInv (events.foldl applyFulfillEvent s) := by
  induction events with
  | nil => intro s hs; simpa using hs
  | cons e rest ih =>
    intro s hs
    simpa using ih (applyFulfillEvent s e) (applyFulfillEvent_inv s e hs)

/-- C1: for a fixed request id, every state the single-flight discipline can
reach has at most one task working on the id (the id is inserted atomically
before any sender work and removed when the attempt completes), and for
every sequence of processing attempts against the request — including
processing the same RequestCreated log twice — the agent lands the on-chain
fulfillment effect at most once, because a repeated attempt is either
dropped at the single-flight set or skipped by the in-mutex recheck that the
status is still PENDING. -/
theorem singleFlight_at_most_once :
    (∀ (b : Bool) (f : Nat → RouterTask), RouterReach b f →
      ∀ i j, f i = RouterTask.working → f j = RouterTask.working → i = j) ∧
    (∀ events : List FulfillEvent, (runFulfillEvents events).2 ≤ 1) := by
  constructor
  · intro b f h i j hi hj
    exact (routerReach_inv h).1 i j hi hj
  · intro events
    exact (foldFulfillEvents_inv events (RequestStatus.pending, 0)
      ⟨fun _ => rfl, by omega⟩).2

/-- Witness for C1: processing the same request twice with both attempts
succeeding at submission yields exactly one effect (count ≤ 1 at a concrete
event list), and in the concrete reachable state where task 0 is working and
task 1 was dropped, the only working index is 0. -/
theorem singleFlight_at_most_once_witness :
    (runFulfillEvents
      [FulfillEvent.ownAttempt true, FulfillEvent.ownAttempt true]).2 ≤ 1 ∧
    (0 : Nat) = 0 :=
  ⟨singleFlight_at_most_once.2
      [FulfillEvent.ownAttempt true, FulfillEvent.ownAttempt true],
   singleFlight_at_most_once.1 true _
      (RouterReach.enterBusy _ 1
        (RouterReach.enterFree _ 0 RouterReach.init rfl) rfl)
      0 0 rfl rfl⟩

/-- Whitespace characters removed by the trim call in loadCursor. -/
def isWsChar (c : Char) : Bool :=
  (c == ' ') || (c == '\t') || (c == '\n') || (c == '\r')

/-- Model of String.prototype.trim on a character list. -/
def trimChars (cs : List Char) : List Char :=
  ((cs.dropWhile isWsChar).reverse.dropWhile isWsChar).reverse

/-- Decimal digit value of a character. -/
def digitVal (c : Char) : Option Nat :=
  if '0' ≤ c ∧ c ≤ '9' then some (c.toNat - 48) else none

/-- Hexadecimal digit value of a character. -/
def hexVal (c : Char) : Option Nat :=
  if '0' ≤ c ∧ c ≤ '9' then some (c.toNat - 48)
  else if 'a' ≤ c ∧ c ≤ 'f' then some (c.toNat - 87)
  else if 'A' ≤ c ∧ c ≤ 'F' then some (c.toNat - 55)
  else none

/-- Octal digit value of a character. -/
def octVal (c : Char) : Option Nat :=
  if '0' ≤ c ∧ c ≤ '7' then some (c.toNat - 48) else none

/-- Binary digit value of a character. -/
def binVal (c : Char) : Option Nat :=
  if c = '0' then some 0 else if c = '1' then some 1 else none

/-- Parse a nonempty digit string in the given base, most significant digit
first; none when some character is not a digit of the base. -/
def parseRadix (base : Nat) (dig : Char → Option Nat) (cs : List Char) :
    Option Nat :=
  match cs with
  | [] => none
  | _ :: _ =>
    cs.foldl (fun acc c =>
      match acc, dig c with
      | some a, some d => some (base * a + d)
      | _, _ => none) (some 0)

/-- Model of the JavaScript BigInt(string) conversion applied to a trimmed
string, as invoked by loadCursor: the empty string converts to 0; a 0x, 0o
or 0b prefix selects a non-decimal radix; otherwise an optional single sign
followed by decimal digits; anything else throws, modelled as none. -/
def parseJsBigInt : List Char → Option Int
  | [] => some 0
  | c :: rest =>
    if c = '+' then (parseRadix 10 digitVal rest).map (fun n => (n : Int))
    else if c = '-' then (parseRadix 10 digitVal rest).map (fun n => -(n : Int))
    else if c = '0' then
      match rest with
      | [] => some 0
      | d :: rest2 =>
        if d = 'x' ∨ d = 'X' then
          (parseRadix 16 hexVal rest2).map (fun n => (n : Int))
        else if d = 'o' ∨ d = 'O' then
          (parseRadix 8 octVal rest2).map (fun n => (n : Int))
        else if d = 'b' ∨ d = 'B' then
          (parseRadix 2 binVal rest2).map (fun n => (n : Int))
        else (parseRadix 10 digitVal (c :: d :: rest2)).map (fun n => (n : Int))
    else (parseRadix 10 digitVal (c :: rest)).map (fun n => (n : Int))

/-- Shallow embedding of loadCursor (the block-cursor module of the
backend): the cursor-file state is none when the file is missing or
unreadable; otherwise the raw content is trimmed and converted with BigInt,
any conversion throw is caught and yields 0, and a non-positive value is
clamped to 0. -/
def loadCursor (file : Option (List Char)) : Nat :=
  match file with
  | none => 0
  | some content =>
    match parseJsBigInt (trimChars content) with
    | none => 0
    | some v => if 0 < v then v.toNat else 0

/-- Decimal digit character for a digit value below 10. -/
def digitToChar (d : Nat) : Char := Char.ofNat (48 + d)

/-- Little-endian decimal digits, computed with explicit fuel (the quotient
shrinks every step, so fuel n suffices for n). -/
def decDigitsAux : Nat → Nat → List Nat
  | 0, _ => []
  | fuel + 1, n => if n = 0 then [] else n % 10 :: decDigitsAux fuel (n / 10)

/-- Little-endian decimal digits of a natural number. -/
def decDigits (n : Nat) : List Nat := decDigitsAux n n

/-- Content written by saveCursor for a block number: the decimal
representation produced by BigInt.prototype.toString, most significant digit
first. -/
def saveCursorContent (block : Nat) : List Char :=
  if block = 0 then ['0'] else (decDigits block).reverse.map digitToChar

lemma decDigitsAux_eq_digits (fuel : Nat) :
    ∀ n : Nat, n ≤ fuel → decDigitsAux fuel n = Nat.digits 10 n := by
  induction fuel with
  | zero =>
    intro n hn
    interval_cases n
    simp [decDigitsAux]
  | succ m ih =>
    intro n hn
    by_cases h0 : n = 0
    · simp [decDigitsAux, h0]
    · rw [decDigitsAux, if_neg h0, ih (n / 10) (by omega),
        ← Nat.digits_def' (by omega : 1 < 10) (by omega : 0 < n)]

lemma digitVal_digitToChar (d : Nat) (hd : d < 10) :
    digitVal (digitToChar d) = some d := by
  interval_cases d <;> decide

lemma isWs_digitToChar (d : Nat) (hd : d < 10) :
    isWsChar (digitToChar d) = false := by
  interval_cases d <;> decide

lemma dropWhile_of_forall_not (p : Char → Bool) (l : List Char)
    (h : ∀ c ∈ l, p c = false) : l.dropWhile p = l := by
  cases l with
  | nil => rfl
  | cons c cs =>
    rw [List.dropWhile_cons, if_neg (by simp [h c (by simp)])]

lemma trimChars_of_forall_not (l : List Char)
    (h : ∀ c ∈ l, isWsChar c = false) : trimChars l = l := by
  unfold trimChars
  rw [dropWhile_of_forall_not _ l h,
    dropWhile_of_forall_not _ l.reverse (fun c hc => h c (List.mem_reverse.mp hc)),
    List.reverse_reverse]

lemma parseFold (l : List Nat) (h : ∀ d ∈ l, d < 10) :
    ∀ a : Nat, (l.map digitToChar).foldl (fun acc c =>
      match acc, digitVal c with
      | some a, some d => some (10 * a + d)
      | _, _ => none) (some a) =
      some (l.foldl (fun acc d => 10 * acc + d) a) := by
  induction l with
  | nil => intro a; rfl
  | cons d rest ih =>
    intro a
    have hd := h d (by simp)
    simp only [List.map_cons, List.foldl_cons, digitVal_digitToChar d hd]
    exact ih (fun x hx => h x (by simp [hx])) (10 * a + d)

lemma foldl_mul_add_reverse (L : List Nat) :
    ∀ a : Nat, L.reverse.foldl (fun acc d => 10 * acc + d) a =
      a * 10 ^ L.length + Nat.ofDigits 10 L := by
  induction L with
  | nil => intro a; simp [Nat.ofDigits]
  | cons d rest ih =>
    intro a
    rw [List.reverse_cons, List.foldl_append, ih a]
    simp only [List.foldl_cons, List.foldl_nil, Nat.ofDigits_cons, List.length_cons]
    ring

lemma parseRadix_decimal (n : Nat) (hn : n ≠ 0) :
    parseRadix 10 digitVal ((Nat.digits 10 n).reverse.map digitToChar) =
      some n := by
  have hlt : ∀ d ∈ (Nat.digits 10 n).reverse, d < 10 := by
    intro d hd
    exact Nat.digits_lt_base (by omega) (List.mem_reverse.mp hd)
  cases hrev : (Nat.digits 10 n).reverse with
  | nil =>
    have : Nat.digits 10 n = [] := by simpa using congrArg List.reverse hrev
    exact absurd this (Nat.digits_ne_nil_iff_ne_zero.mpr hn)
  | cons x xs =>
    rw [hrev] at hlt
    have hstep : parseRadix 10 digitVal ((x :: xs).map digitToChar) =
        ((x :: xs).map digitToChar).foldl (fun acc c =>
          match acc, digitVal c with
          | some a, some d => some (10 * a + d)
          | _, _ => none) (some 0) := by
      simp [parseRadix]
    rw [hstep, parseFold (x :: xs) hlt 0, ← hrev, foldl_mul_add_reverse,
      Nat.ofDigits_digits]
    simp

lemma parseJsBigInt_decimal (n : Nat) (hn : n ≠ 0) :
    parseJsBigInt ((Nat.digits 10 n).reverse.map digitToChar) =
      some (n : Int) := by
  cases hrev : (Nat.digits 10 n).reverse with
  | nil =>
    have : Nat.digits 10 n = [] := by simpa using congrArg List.reverse hrev
    exact absurd this (Nat.digits_ne_nil_iff_ne_zero.mpr hn)
  | cons x xs =>
    have hd : Nat.digits 10 n = xs.reverse ++ [x] := by
      rw [← List.reverse_reverse (Nat.digits 10 n), hrev, List.reverse_cons]
    have hmem : x ∈ Nat.digits 10 n := by
      rw [hd]; simp
    have hxlt : x < 10 := Nat.digits_lt_base (by omega) hmem
    have hlast : (Nat.digits 10 n).getLast? = some x := by
      rw [hd, List.getLast?_append_cons]
      rfl
    have hx0 : x ≠ 0 := by
      intro hx
      have hne : Nat.digits 10 n ≠ [] := Nat.digits_ne_nil_iff_ne_zero.mpr hn
      have hgl := List.getLast?_eq_getLast_of_ne_nil hne
      rw [hgl] at hlast
      have hxeq : (Nat.digits 10 n).getLast hne = x := by
        injection hlast
      exact Nat.getLast_digit_ne_zero 10 hn (hxeq.trans hx)
    have hplus : digitToChar x ≠ '+' := by interval_cases x <;> decide
    have hminus : digitToChar x ≠ '-' := by interval_cases x <;> decide
    have hzero : digitToChar x ≠ '0' := by
      interval_cases x <;> first | (exact absurd rfl hx0) | decide
    simp only [List.map_cons]
    rw [parseJsBigInt.eq_def]
    dsimp only
    rw [if_neg hplus, if_neg hminus, if_neg hzero,
      ← List.map_cons, ← hrev, parseRadix_decimal n hn]
    rfl

lemma saveCursorContent_digits (n : Nat) (hn : n ≠ 0) :
    saveCursorContent n = (Nat.digits 10 n).reverse.map digitToChar := by
  rw [saveCursorContent, if_neg hn, decDigits, decDigitsAux_eq_digits n n le_rfl]

/-- C10: loadCursor is total over every cursor-file state: a missing or
unreadable file loads as 0, content that the BigInt conversion rejects loads
as 0, a parsed value at most 0 loads as 0, and every positive cursor written
by saveCursor round-trips exactly through save-then-load. -/
theorem loadCursor_total_and_roundTrip :
    loadCursor none = 0 ∧
    (∀ content, parseJsBigInt (trimChars content) = none →
      loadCursor (some content) = 0) ∧
    (∀ content v, parseJsBigInt (trimChars content) = some v → v ≤ 0 →
      loadCursor (some content) = 0) ∧
    (∀ n : Nat, 0 < n → loadCursor (some (saveCursorContent n)) = n) := by
  refine ⟨rfl, ?_, ?_, ?_⟩
  · intro content h
    simp [loadCursor, h]
  · intro content v h hv
    simp only [loadCursor, h]
    rw [if_neg (by omega)]
  · intro n hn
    have hn0 : n ≠ 0 := by omega
    have hws : ∀ c ∈ saveCursorContent n, isWsChar c = false := by
      intro c hc
      rw [saveCursorContent_digits n hn0] at hc
      simp only [List.mem_map] at hc
      obtain ⟨d, hdmem, rfl⟩ := hc
      exact isWs_digitToChar d
        (Nat.digits_lt_base (by omega) (List.mem_reverse.mp hdmem))
    have hws2 : ∀ c ∈ (Nat.digits 10 n).reverse.map digitToChar,
        isWsChar c = false := by
      rw [← saveCursorContent_digits n hn0]
      exact hws
    have htrim2 := trimChars_of_forall_not _ hws2
    simp only [loadCursor, saveCursorContent_digits n hn0, htrim2,
      parseJsBigInt_decimal n hn0]
    rw [if_pos (by exact_mod_cast hn)]
    simp

/-- Witness for C10 at concrete file states: unparsable content loads as 0,
a negative stored value loads as 0, and the cursor 42 round-trips through
save-then-load. -/
theorem loadCursor_total_and_roundTrip_witness :
    loadCursor (some ['a', 'b', 'c']) = 0 ∧
    loadCursor (some ['-', '5']) = 0 ∧
    loadCursor (some (saveCursorContent 42)) = 42 :=
  ⟨loadCursor_total_and_roundTrip.2.1 ['a', 'b', 'c'] (by decide),
   loadCursor_total_and_roundTrip.2.2.1 ['-', '5'] (-5) (by decide) (by decide),
   loadCursor_total_and_roundTrip.2.2.2 42 (by decide)⟩

end X402C
